import Mathlib

/-!
Verification of the tg-reminder-bot repository: a shallow embedding of its
configuration store, address validation, gauge reading and batch checking
logic, together with theorems settling the specified properties.

Machine integers of the source (JS numbers holding unix timestamps and hour
thresholds) are modelled as Int; fractional hour values as Rat. Fallible
external contract reads are modelled as Except-valued functions bundled in a
Chain record. The external JSON library is modelled at the level of document
trees (the Json inductive below): stringify/parse of the library round-trips
a document tree, so persistence is modelled as storing the tree itself.
-/

/-- A registered monitor: one entry of a chat's reminder list.
From src/src/types.ts (interface GaugeConfig). -/
structure GaugeConfig where
  gaugeAddress : String
  rewardToken : String
  hoursBefore : Int
  userToPing : String
deriving DecidableEq, Repr

/-- One chat's state. From src/src/types.ts (interface GroupConfig). -/
structure GroupConfig where
  gauges : List GaugeConfig
deriving DecidableEq, Repr

/-- Mapping from chat identifier to group config. From src/src/types.ts
(interface AllConfig): a JS object keyed by chat id, modelled as an ordered
association list. -/
abbrev AllConfig : Type := List (String × GroupConfig)

/-- The character class [a-fA-F0-9] of the source regex. -/
def hexClass (c : Char) : Bool :=
  (('a' ≤ c && c ≤ 'f') || ('A' ≤ c && c ≤ 'F')) || ('0' ≤ c && c ≤ '9')

/-- Matcher for a fixed-length anchored regex given as a list of
per-character classes: the whole input must match class by class. -/
def matchSeq : List (Char → Bool) → List Char → Bool
  | [], [] => true
  | p :: ps, c :: cs => p c && matchSeq ps cs
  | _, _ => false

/-- The pattern of the source regex /^0x[a-fA-F0-9]\x7b40\x7d$/ :
literal '0', literal 'x', then forty hex-class characters. -/
def addressPattern : List (Char → Bool) :=
  (fun c => c == '0') :: (fun c => c == 'x') :: List.replicate 40 hexClass

/-- From src/unnamed/part_000 line 65:
isValidAddress = (addr) => regex test of addr against the address pattern. -/
def isValidAddress (addr : String) : Bool :=
  matchSeq addressPattern addr.data

/-- Helper: matching a replicated class is length plus pointwise membership. -/
theorem matchSeq_replicate (p : Char → Bool) :
    ∀ (n : Nat) (cs : List Char),
      matchSeq (List.replicate n p) cs = true ↔
        cs.length = n ∧ ∀ c ∈ cs, p c = true := by
  intro n
  induction n with
  | zero =>
    intro cs
    cases cs with
    | nil => simp [matchSeq]
    | cons c cs => simp [matchSeq]
  | succ k ih =>
    intro cs
    cases cs with
    | nil => simp [matchSeq]
    | cons c cs =>
      simp only [List.replicate, matchSeq, Bool.and_eq_true, ih cs,
        List.length_cons, List.mem_cons]
      constructor
      · rintro ⟨hc, hlen, hall⟩
        refine ⟨by omega, ?_⟩
        rintro d (rfl | hd)
        · exact hc
        · exact hall d hd
      · rintro ⟨hlen, hall⟩
        exact ⟨hall c (Or.inl rfl), by omega, fun d hd => hall d (Or.inr hd)⟩

/-- Helper: full characterization of the source regex test. -/
theorem isValidAddress_iff (s : String) :
    isValidAddress s = true ↔
      s.data.length = 42 ∧ s.data.take 2 = ['0', 'x'] ∧
        ∀ c ∈ s.data.drop 2, hexClass c = true := by
  unfold isValidAddress addressPattern
  cases hs : s.data with
  | nil => simp [matchSeq]
  | cons c0 rest0 =>
    cases rest0 with
    | nil => simp [matchSeq]
    | cons c1 rest =>
      simp only [matchSeq, Bool.and_eq_true, beq_iff_eq,
        matchSeq_replicate hexClass 40 rest, List.length_cons,
        List.take_succ_cons, List.take_zero, List.drop_succ_cons,
        List.drop_zero]
      constructor
      · rintro ⟨rfl, rfl, hlen, hall⟩
        exact ⟨by omega, rfl, hall⟩
      · rintro ⟨hlen, heq, hall⟩
        have h0 : c0 = '0' := by
          have := congrArg (fun l => l.head?) heq
          simpa using this
        have h1 : c1 = 'x' := by
          have := congrArg (fun l => l.head?.bind (fun _ => (l.drop 1).head?)) heq
          simp at this
          simpa using this
        exact ⟨h0, h1, by omega, hall⟩

/-- Lowercasing used for case-insensitive address equality. -/
def lowerStr (s : String) : String := ⟨s.data.map Char.toLower⟩

/-- Case-insensitive address comparison (lowercase-invariant equality). -/
def addrEq (a b : String) : Bool := lowerStr a == lowerStr b

/-- The group config for a chat, empty if absent (ConfigStore.get). -/
def getGroup (cfg : AllConfig) (chatId : String) : GroupConfig :=
  match cfg.find? (fun p => p.1 == chatId) with
  | some p => p.2
  | none => ⟨[]⟩

/-- Replace the group stored under a chat id, appending a new entry when the
chat id is absent (ConfigStore.upsertGroup followed by assignment). -/
def setGroup : AllConfig → String → GroupConfig → AllConfig
  | [], chatId, g => [(chatId, g)]
  | p :: rest, chatId, g =>
      if p.1 == chatId then (chatId, g) :: rest
      else p :: setGroup rest chatId g

/-- The reward_data tuple returned by the gauge contract
(ABI in src/unnamed/part_000 lines 34-46); timestamps as Int. -/
structure RewardData where
  distributor : String
  period_finish : Int
  rate : Int
  last_update : Int
  integral : Int
deriving DecidableEq, Repr

/-- Modelled from the spec: the external read-only contract interface consumed
by GaugeReader (reward_count, reward_tokens, reward_data); each call can fail
(network/timeout/revert), modelled by Except String. The GaugeReader code
itself is not under src/; its ABI is, in src/unnamed/part_000 lines 19-47. -/
structure Chain where
  reward_count : String → Except String Nat
  reward_tokens : String → Nat → Except String String
  reward_data : String → String → Except String RewardData

/-- Modelled from the spec: the scanning loop of tokenExistsOnGauge, reading
reward_tokens(i) for i, i+1, ... while fuel lasts, short-circuiting on the
first case-insensitive match; a read failure propagates. -/
def scanTokens (ch : Chain) (gauge token : String) : Nat → Nat → Except String Bool
  | _, 0 => .ok false
  | i, fuel + 1 =>
      match ch.reward_tokens gauge i with
      | .error e => .error e
      | .ok t => if addrEq t token then .ok true
                 else scanTokens ch gauge token (i + 1) fuel

/-- Modelled from the spec: tokenExistsOnGauge(gauge, token) — linear scan over
indices 0..reward_count-1 calling reward_tokens(i), case-insensitive address
comparison, short-circuit on first match (GaugeReader is not under src/). -/
def tokenExistsOnGauge (ch : Chain) (gauge token : String) : Except String Bool :=
  match ch.reward_count gauge with
  | .error e => .error e
  | .ok n => scanTokens ch gauge token 0 n

/-- Modelled from the spec: hoursRemaining(gauge, token) =
(period_finish - now_unix_seconds) / 3600, integer timestamp arithmetic then
conversion to a fractional hour value (GaugeReader is not under src/). -/
def hoursRemaining (ch : Chain) (now : Int) (gauge token : String) : Except String Rat :=
  match ch.reward_data gauge token with
  | .error e => .error e
  | .ok d => .ok (((d.period_finish - now : Int) : Rat) / 3600)

/-- Modelled from the spec: parsing the hoursBefore argument as a positive
integer (CommandHandler step 3; the handler code is not under src/). -/
def parsePositiveInt (s : String) : Option Int :=
  match s.toInt? with
  | some n => if 0 < n then some n else none
  | none => none

/-- The replies a command handler can produce, one constructor per canned
message of the spec's command surface table. -/
inductive Reply
  | usageError
  | invalidAddressError
  | invalidHoursError
  | tokenNotFoundError
  | contractReadError
  | nothingToRemove
  | notFound
  | addSuccess (hoursLeft : Option Rat)
  | removeSuccess
deriving DecidableEq, Repr

/-- Whether a reply is one of the error replies (any non-success reply). -/
def Reply.isError : Reply → Bool
  | .addSuccess _ => false
  | .removeSuccess => false
  | _ => true

/-- Modelled from the spec: the add_gauge_reminder command handler
(spec 4.4) — require exactly 4 arguments, validate both addresses, parse a
positive hoursBefore, check the token exists on the gauge (read failure is its
own error), then append the reminder to the chat's group and reply success
with the current hours-remaining estimate (display only, never blocks).
Returns the new store contents and the reply; the store is returned unchanged
on every failure. The handler code is not under src/. -/
def handleAdd (ch : Chain) (now : Int) (cfg : AllConfig) (chatId : String)
    (args : List String) : AllConfig × Reply :=
  match args with
  | [g, t, h, u] =>
      if isValidAddress g && isValidAddress t then
        match parsePositiveInt h with
        | some hours =>
            match tokenExistsOnGauge ch g t with
            | .ok true =>
                let est := (hoursRemaining ch now g t).toOption
                let group := getGroup cfg chatId
                (setGroup cfg chatId ⟨group.gauges ++ [⟨g, t, hours, u⟩]⟩,
                 .addSuccess est)
            | .ok false => (cfg, .tokenNotFoundError)
            | .error _ => (cfg, .contractReadError)
        | none => (cfg, .invalidHoursError)
      else (cfg, .invalidAddressError)
  | _ => (cfg, .usageError)

/-- Modelled from the spec: the remove_gauge_reminder command handler
(spec 4.4) — require exactly 2 arguments, validate both addresses, reply
"nothing to remove" when the chat has no reminders, otherwise filter out every
reminder whose (gaugeAddress, rewardToken) pair matches case-insensitively;
when the length is unchanged reply "not found" without persisting, else store
the filtered list, persist, and reply success. The middle component of the
result records whether ConfigStore.save was called. The handler code is not
under src/. -/
def handleRemove (cfg : AllConfig) (chatId : String)
    (args : List String) : AllConfig × Bool × Reply :=
  match args with
  | [g, t] =>
      if isValidAddress g && isValidAddress t then
        let l := (getGroup cfg chatId).gauges
        if l.isEmpty then (cfg, false, .nothingToRemove)
        else
          let l2 := l.filter
            (fun r => !(addrEq r.gaugeAddress g && addrEq r.rewardToken t))
          if l2.length = l.length then (cfg, false, .notFound)
          else (setGroup cfg chatId ⟨l2⟩, true, .removeSuccess)
      else (cfg, false, .invalidAddressError)
  | _ => (cfg, false, .usageError)

/-- An observable action of a batch-checker run: an alert message sent to a
chat for a user, or a logged-and-skipped contract-read failure. -/
inductive Event
  | alert (chatId userToPing gauge token : String)
  | readFailLog (chatId gauge token : String)
deriving DecidableEq, Repr

/-- Modelled from the spec: processing of a single reminder inside
runCheckerOnce (spec 4.5) — query reward_data; on failure log and continue;
otherwise compute hours remaining (may be negative) and send exactly one alert
when it is ≤ the reminder's hoursBefore threshold. The checker code is not
under src/. -/
def checkReminder (ch : Chain) (now : Int) (chatId : String)
    (r : GaugeConfig) : List Event :=
  match ch.reward_data r.gaugeAddress r.rewardToken with
  | .error _ => [.readFailLog chatId r.gaugeAddress r.rewardToken]
  | .ok d =>
      if ((d.period_finish - now : Int) : Rat) / 3600 ≤ (r.hoursBefore : Rat)
      then [.alert chatId r.userToPing r.gaugeAddress r.rewardToken]
      else []

/-- Modelled from the spec: runCheckerOnce (spec 4.5) — a single pass over
every chat and every reminder in insertion order, collecting the emitted
events; never mutates the store. The checker code is not under src/. -/
def runCheckerOnce (ch : Chain) (now : Int) (cfg : AllConfig) : List Event :=
  cfg.flatMap (fun p => p.2.gauges.flatMap (checkReminder ch now p.1))

/-- From src/unnamed/part_000 line 51:
config = fs.existsSync(CONFIG_FILE) ? JSON.parse(readFileSync(...)) : \x7b\x7d.
The file system is modelled as an optional file content, JSON.parse as a
fallible parse function; a thrown parse error is the Except error (it
propagates, aborting startup). -/
def loadConfig (file : Option String)
    (parseContent : String → Except String AllConfig) : Except String AllConfig :=
  match file with
  | none => .ok []
  | some s => parseContent s

/-- A JSON document tree (the value space of the external JSON library). -/
inductive Json
  | str (s : String)
  | num (n : Int)
  | arr (elems : List Json)
  | obj (fields : List (String × Json))
deriving Repr

/-- The JSON document JSON.stringify produces for one GaugeConfig record
(field order is JS insertion order, per src/src/types.ts). -/
def encodeGauge (g : GaugeConfig) : Json :=
  .obj [("gaugeAddress", .str g.gaugeAddress),
        ("rewardToken", .str g.rewardToken),
        ("hoursBefore", .num g.hoursBefore),
        ("userToPing", .str g.userToPing)]

/-- Reading one GaugeConfig record back from its JSON document. -/
def decodeGauge : Json → Option GaugeConfig
  | .obj [("gaugeAddress", .str ga), ("rewardToken", .str rt),
          ("hoursBefore", .num hb), ("userToPing", .str up)] =>
      some ⟨ga, rt, hb, up⟩
  | _ => none

/-- Reading a list of GaugeConfig records back element by element. -/
def decodeGaugeList : List Json → Option (List GaugeConfig)
  | [] => some []
  | j :: rest =>
      match decodeGauge j, decodeGaugeList rest with
      | some g, some gs => some (g :: gs)
      | _, _ => none

/-- The JSON document for one GroupConfig. -/
def encodeGroup (g : GroupConfig) : Json :=
  .obj [("gauges", .arr (g.gauges.map encodeGauge))]

/-- Reading one GroupConfig back from its JSON document. -/
def decodeGroup : Json → Option GroupConfig
  | .obj [("gauges", .arr xs)] =>
      match decodeGaugeList xs with
      | some gs => some ⟨gs⟩
      | none => none
  | _ => none

/-- The JSON document saveConfig writes for the whole store
(src/unnamed/part_000 lines 53-55: JSON.stringify of the top-level mapping);
the byte-level rendering of the external JSON library is modelled as the
identity on document trees, since stringify/parse round-trips them. -/
def encodeAllConfig (cfg : AllConfig) : Json :=
  .obj (cfg.map (fun p => (p.1, encodeGroup p.2)))

/-- Reading the top-level fields back one chat at a time. -/
def decodeGroupFields : List (String × Json) → Option AllConfig
  | [] => some []
  | (k, v) :: rest =>
      match decodeGroup v, decodeGroupFields rest with
      | some g, some c => some ((k, g) :: c)
      | _, _ => none

/-- Reading the whole store back from the persisted JSON document, as the
startup JSON.parse of src/unnamed/part_000 line 51 does. -/
def decodeAllConfig : Json → Option AllConfig
  | .obj fields => decodeGroupFields fields
  | _ => none

/-- Hex digit in either case, as the spec words it ("0x" followed by exactly
40 hexadecimal characters, case-insensitive). -/
def isHexDigitChar (c : Char) : Bool :=
  ('0' ≤ c && c ≤ '9') || (('a' ≤ c && c ≤ 'f') || ('A' ≤ c && c ≤ 'F'))

/-- Helper: the source's character class is exactly hex-digit-in-either-case. -/
theorem hexClass_eq_isHexDigitChar (c : Char) : hexClass c = isHexDigitChar c := by
  unfold hexClass isHexDigitChar
  cases hd : ('0' ≤ c && c ≤ '9') <;>
    cases hl : ('a' ≤ c && c ≤ 'f') <;>
      cases hu : ('A' ≤ c && c ≤ 'F') <;> simp [hd, hl, hu]

/-- C1: isValidAddress(s) returns true iff s is "0x" followed by exactly 40
hexadecimal characters in either case; every other string (wrong length,
missing 0x, non-hex characters) yields false. -/
theorem isValidAddress_correct (s : String) :
    isValidAddress s = true ↔
      s.data.length = 42 ∧ s.data.take 2 = ['0', 'x'] ∧
        ∀ c ∈ s.data.drop 2, isHexDigitChar c = true := by
  rw [isValidAddress_iff]
  constructor
  · rintro ⟨h1, h2, h3⟩
    exact ⟨h1, h2, fun c hc => (hexClass_eq_isHexDigitChar c) ▸ h3 c hc⟩
  · rintro ⟨h1, h2, h3⟩
    exact ⟨h1, h2, fun c hc => (hexClass_eq_isHexDigitChar c) ▸ h3 c hc⟩

/-- C10: only the 40 hex digits are case-insensitive, never the prefix
characters: whenever the first two characters of s are not exactly the
lowercase zero-x, isValidAddress returns false. -/
theorem isValidAddress_needs_lowercase_0x (s : String)
    (h : s.data.take 2 ≠ ['0', 'x']) : isValidAddress s = false := by
  cases hv : isValidAddress s with
  | false => rfl
  | true => exact absurd ((isValidAddress_iff s).mp hv).2.1 h

/-- C10 witness: a string of the right length and hex body but with an
uppercase X after the zero is rejected. -/
theorem isValidAddress_needs_lowercase_0x_witness :
    ("0Xaaaaaaaaaaaaaaaaaaaaaaaaaaaaaaaaaaaaaaaa" : String).data.take 2 ≠ ['0', 'x'] ∧
      isValidAddress "0Xaaaaaaaaaaaaaaaaaaaaaaaaaaaaaaaaaaaaaaaa" = false :=
  ⟨by decide, isValidAddress_needs_lowercase_0x _ (by decide)⟩

/-- A well-formed gauge address used by concrete instances. -/
def gaugeA : String := "0xaaaaaaaaaaaaaaaaaaaaaaaaaaaaaaaaaaaaaaaa"

/-- A well-formed reward-token address used by concrete instances. -/
def tokenB : String := "0xbbbbbbbbbbbbbbbbbbbbbbbbbbbbbbbbbbbbbbbb"

/-- A well-formed reward-token address with uppercase hex digits. -/
def tokenC : String := "0xCCCCCCCCCCCCCCCCCCCCCCCCCCCCCCCCCCCCCCCC"

/-- The lowercase form of tokenC. -/
def tokenCLower : String := "0xcccccccccccccccccccccccccccccccccccccccc"

/-- A concrete chain for instances: two reward tokens on every gauge,
reward_data succeeding only for tokenB (period_finish 7200), every other
token's read failing. -/
def testChain : Chain where
  reward_count := fun _ => .ok 2
  reward_tokens := fun _ i => .ok (if i == 0 then tokenB else tokenC)
  reward_data := fun _ t =>
    if t == tokenB then .ok ⟨gaugeA, 7200, 1, 0, 0⟩
    else .error "contract read failed"

/-- C2: every add_gauge_reminder command failing a validation step (argument
count other than 4, an invalid address, a non-positive or unparseable
hoursBefore, a token absent from the gauge, or a failed contract read) leaves
the store exactly as it was and replies an error. -/
theorem handleAdd_error_no_mutation (ch : Chain) (now : Int) (cfg : AllConfig)
    (chatId : String) (args : List String)
    (h : args.length ≠ 4 ∨
      ∃ g t hs u, args = [g, t, hs, u] ∧
        (isValidAddress g = false ∨ isValidAddress t = false ∨
         parsePositiveInt hs = none ∨
         tokenExistsOnGauge ch g t = .ok false ∨
         ∃ e, tokenExistsOnGauge ch g t = .error e)) :
    (handleAdd ch now cfg chatId args).1 = cfg ∧
      ((handleAdd ch now cfg chatId args).2).isError = true := by
  rcases h with hlen | ⟨g, t, hs, u, rfl, hfail⟩
  · rcases args with _ | ⟨a, _ | ⟨b, _ | ⟨c, _ | ⟨d, _ | ⟨e, rest⟩⟩⟩⟩⟩
    · exact ⟨rfl, rfl⟩
    · exact ⟨rfl, rfl⟩
    · exact ⟨rfl, rfl⟩
    · exact ⟨rfl, rfl⟩
    · simp at hlen
    · exact ⟨rfl, rfl⟩
  · rcases hfail with hg | ht | hp | hok | ⟨e, herr⟩
    · simp [handleAdd, hg, Reply.isError]
    · simp [handleAdd, ht, Reply.isError]
    · cases hv : (isValidAddress g && isValidAddress t) <;>
        simp [handleAdd, hv, hp, Reply.isError]
    · cases hv : (isValidAddress g && isValidAddress t)
      · simp [handleAdd, hv, Reply.isError]
      · cases hpv : parsePositiveInt hs <;>
          simp [handleAdd, hv, hpv, hok, Reply.isError]
    · cases hv : (isValidAddress g && isValidAddress t)
      · simp [handleAdd, hv, Reply.isError]
      · cases hpv : parsePositiveInt hs <;>
          simp [handleAdd, hv, hpv, herr, Reply.isError]

/-- C2 witness: the zero-argument command on an empty store leaves it empty
and replies an error. -/
theorem handleAdd_error_no_mutation_witness :
    (handleAdd testChain 0 [] "chat" []).1 = [] ∧
      ((handleAdd testChain 0 [] "chat" []).2).isError = true :=
  handleAdd_error_no_mutation testChain 0 [] "chat" [] (Or.inl (by decide))

/-- The gauge address with uppercase hex digits (same address as gaugeA). -/
def gaugeAUpper : String := "0xAAAAAAAAAAAAAAAAAAAAAAAAAAAAAAAAAAAAAAAA"

/-- The reward-token address with uppercase hex digits (same as tokenB). -/
def tokenBUpper : String := "0xBBBBBBBBBBBBBBBBBBBBBBBBBBBBBBBBBBBBBBBB"

/-- A store holding one reminder in one chat. -/
def cfgOne : AllConfig := [("chat", ⟨[⟨gaugeA, tokenB, 24, "@alice"⟩]⟩)]

/-- C3 counterexample: a well-formed remove command on a chat with no
reminders replies "nothing to remove", not "not found", although no reminder
matched and the list length is unchanged. -/
theorem handleRemove_empty_chat_not_notFound :
    handleRemove [] "chat" [gaugeA, tokenB] = ([], false, .nothingToRemove) ∧
      Reply.nothingToRemove ≠ Reply.notFound :=
  ⟨rfl, by decide⟩

/-- C3 (amended: an empty chat list replies "nothing to remove"; the
"not found" reply is for a nonempty list with no match): a well-formed remove
command filters out exactly the case-insensitively matching (gauge, token)
pairs; on an empty list it replies "nothing to remove" without touching the
store; on a nonempty list with unchanged length nothing matched, the list is
unchanged, nothing is persisted and it replies "not found"; otherwise the
filtered list is stored, persisted, and it replies success. -/
theorem handleRemove_correct (cfg : AllConfig) (chatId g t : String)
    (l l2 : List GaugeConfig)
    (hg : isValidAddress g = true) (ht : isValidAddress t = true)
    (hl : l = (getGroup cfg chatId).gauges)
    (hl2 : l2 = l.filter
      (fun r => !(addrEq r.gaugeAddress g && addrEq r.rewardToken t))) :
    (l = [] → handleRemove cfg chatId [g, t] = (cfg, false, .nothingToRemove)) ∧
    (l ≠ [] → l2.length = l.length →
        handleRemove cfg chatId [g, t] = (cfg, false, .notFound) ∧ l2 = l) ∧
    (l ≠ [] → l2.length ≠ l.length →
        handleRemove cfg chatId [g, t] =
          (setGroup cfg chatId ⟨l2⟩, true, .removeSuccess)) ∧
    (l2.length = l.length ↔
      ∀ r ∈ l, ¬(addrEq r.gaugeAddress g = true ∧ addrEq r.rewardToken t = true)) := by
  have hv : (isValidAddress g && isValidAddress t) = true := by rw [hg, ht]; rfl
  have hmain : handleRemove cfg chatId [g, t] =
      (if l.isEmpty then (cfg, false, Reply.nothingToRemove)
       else if l2.length = l.length then (cfg, false, Reply.notFound)
       else (setGroup cfg chatId ⟨l2⟩, true, Reply.removeSuccess)) := by
    simp only [handleRemove, hv, eq_self_iff_true, if_true, ← hl, ← hl2]
  refine ⟨?_, ?_, ?_, ?_⟩
  · intro hnil
    rw [hmain, if_pos (List.isEmpty_iff.mpr hnil)]
  · intro hne hlen
    have hni : ¬ (l.isEmpty = true) := by simp [List.isEmpty_iff]; exact hne
    refine ⟨?_, ?_⟩
    · rw [hmain, if_neg hni, if_pos hlen]
    · rw [hl2]
      exact List.filter_eq_self.mpr (List.filter_length_eq_length.mp (hl2 ▸ hlen))
  · intro hne hlen
    have hni : ¬ (l.isEmpty = true) := by simp [List.isEmpty_iff]; exact hne
    rw [hmain, if_neg hni, if_neg hlen]
  · rw [hl2, List.filter_length_eq_length]
    constructor
    · intro h r hr hc
      have := h r hr
      rw [hc.1, hc.2] at this
      simp at this
    · intro h r hr
      cases hga : addrEq r.gaugeAddress g
      · rfl
      · cases hrt : addrEq r.rewardToken t
        · rfl
        · exact absurd ⟨hga, hrt⟩ (h r hr)

/-- C3 witness: removing with uppercase-hex command arguments deletes the
matching lowercase-stored reminder, persists, and replies success. -/
theorem handleRemove_correct_witness :
    handleRemove cfgOne "chat" [gaugeAUpper, tokenBUpper] =
      ([("chat", ⟨[]⟩)], true, .removeSuccess) := by
  have h := (handleRemove_correct cfgOne "chat" gaugeAUpper tokenBUpper
      [⟨gaugeA, tokenB, 24, "@alice"⟩] [] (by decide) (by decide) (by decide)
      (by decide)).2.2.1
      (by decide) (by decide)
  rw [h]
  rfl

/-- Helper: a reminder whose reward_data read succeeds produces the alert
exactly when the hours-remaining value is at or below the threshold. -/
theorem checkReminder_ok (ch : Chain) (now : Int) (chatId : String)
    (r : GaugeConfig) (d : RewardData)
    (h : ch.reward_data r.gaugeAddress r.rewardToken = .ok d) :
    checkReminder ch now chatId r =
      (if ((d.period_finish - now : Int) : Rat) / 3600 ≤ (r.hoursBefore : Rat)
       then [Event.alert chatId r.userToPing r.gaugeAddress r.rewardToken]
       else []) := by
  unfold checkReminder
  rw [h]

/-- Helper: a reminder whose reward_data read fails produces only the log
entry. -/
theorem checkReminder_err (ch : Chain) (now : Int) (chatId : String)
    (r : GaugeConfig) (e : String)
    (h : ch.reward_data r.gaugeAddress r.rewardToken = .error e) :
    checkReminder ch now chatId r =
      [Event.readFailLog chatId r.gaugeAddress r.rewardToken] := by
  unfold checkReminder
  rw [h]

/-- C4: in a batch-checker run (which processes every reminder with
checkReminder), a reminder whose reward_data read succeeds sends exactly one
alert to the owning chat addressed to its userToPing iff the computed hours
remaining is ≤ its hoursBefore threshold (negative values included), and no
alert otherwise. -/
theorem checkReminder_alert_iff (ch : Chain) (now : Int) (chatId : String)
    (r : GaugeConfig) (d : RewardData)
    (h : ch.reward_data r.gaugeAddress r.rewardToken = .ok d) :
    checkReminder ch now chatId r =
      (if ((d.period_finish - now : Int) : Rat) / 3600 ≤ (r.hoursBefore : Rat)
       then [Event.alert chatId r.userToPing r.gaugeAddress r.rewardToken]
       else []) ∧
    ∀ cfg : AllConfig, runCheckerOnce ch now cfg =
      cfg.flatMap (fun p => p.2.gauges.flatMap (checkReminder ch now p.1)) :=
  ⟨checkReminder_ok ch now chatId r d h, fun _ => rfl⟩

/-- C4 witness: threshold 24 hours, period_finish 2 hours away: exactly one
alert, addressed to the configured user, carrying the gauge and token. -/
theorem checkReminder_alert_iff_witness :
    checkReminder testChain 0 "chat" ⟨gaugeA, tokenB, 24, "@alice"⟩ =
      [Event.alert "chat" "@alice" gaugeA tokenB] := by
  rw [(checkReminder_alert_iff testChain 0 "chat" ⟨gaugeA, tokenB, 24, "@alice"⟩
      ⟨gaugeA, 7200, 1, 0, 0⟩ rfl).1, if_pos (by norm_num)]

/-- C5: a reminder whose contract read fails is logged and skipped; every
other reminder of the run — earlier or later in the same chat, or in any
other chat — contributes exactly what it would have contributed anyway. -/
theorem runCheckerOnce_isolates_failure (ch : Chain) (now : Int)
    (pre post : AllConfig) (chatId : String) (gs1 gs2 : List GaugeConfig)
    (r : GaugeConfig) (e : String)
    (h : ch.reward_data r.gaugeAddress r.rewardToken = .error e) :
    runCheckerOnce ch now (pre ++ (chatId, ⟨gs1 ++ r :: gs2⟩) :: post) =
      runCheckerOnce ch now pre
        ++ gs1.flatMap (checkReminder ch now chatId)
        ++ [Event.readFailLog chatId r.gaugeAddress r.rewardToken]
        ++ gs2.flatMap (checkReminder ch now chatId)
        ++ runCheckerOnce ch now post := by
  unfold runCheckerOnce
  rw [List.flatMap_append, List.flatMap_cons]
  rw [show (⟨gs1 ++ r :: gs2⟩ : GroupConfig).gauges = gs1 ++ r :: gs2 from rfl]
  rw [List.flatMap_append, List.flatMap_cons]
  rw [checkReminder_err ch now chatId r e h]
  simp [List.append_assoc]

/-- A reminder whose token read fails on testChain. -/
def remFail : GaugeConfig := ⟨gaugeA, tokenCLower, 24, "@alice"⟩

/-- A reminder alerting for @bob on testChain. -/
def remBob : GaugeConfig := ⟨gaugeA, tokenB, 24, "@bob"⟩

/-- A reminder alerting for @carol on testChain. -/
def remCarol : GaugeConfig := ⟨gaugeA, tokenB, 24, "@carol"⟩

/-- C5 witness: the first reminder's read fails, yet the later reminder in
the same chat and the one in the next chat still alert. -/
theorem runCheckerOnce_isolates_failure_witness :
    runCheckerOnce testChain 0
        [("chat1", ⟨[remFail, remBob]⟩), ("chat2", ⟨[remCarol]⟩)] =
      [Event.readFailLog "chat1" gaugeA tokenCLower,
       Event.alert "chat1" "@bob" gaugeA tokenB,
       Event.alert "chat2" "@carol" gaugeA tokenB] := by
  have hb : checkReminder testChain 0 "chat1" remBob =
      [Event.alert "chat1" "@bob" gaugeA tokenB] := by
    rw [checkReminder_ok testChain 0 "chat1" remBob ⟨gaugeA, 7200, 1, 0, 0⟩ rfl]
    norm_num [remBob]
  have hc : checkReminder testChain 0 "chat2" remCarol =
      [Event.alert "chat2" "@carol" gaugeA tokenB] := by
    rw [checkReminder_ok testChain 0 "chat2" remCarol ⟨gaugeA, 7200, 1, 0, 0⟩ rfl]
    norm_num [remCarol]
  rw [show ([("chat1", (⟨[remFail, remBob]⟩ : GroupConfig)), ("chat2", ⟨[remCarol]⟩)] : AllConfig) =
      [] ++ ("chat1", (⟨[] ++ remFail :: [remBob]⟩ : GroupConfig)) :: [("chat2", ⟨[remCarol]⟩)] from rfl]
  rw [runCheckerOnce_isolates_failure testChain 0 [] [("chat2", ⟨[remCarol]⟩)]
      "chat1" [] [remBob] remFail "contract read failed" rfl]
  simp [runCheckerOnce, hb, hc, remFail]

/-- C6: when the reward_data read succeeds, hoursRemaining returns exactly
(period_finish - now) / 3600 as a fractional value, and a period_finish in
the past yields a negative value (no clamping to zero). -/
theorem hoursRemaining_correct (ch : Chain) (now : Int) (gauge token : String)
    (d : RewardData) (h : ch.reward_data gauge token = .ok d) :
    hoursRemaining ch now gauge token =
        .ok (((d.period_finish - now : Int) : Rat) / 3600) ∧
      (d.period_finish < now →
        ((d.period_finish - now : Int) : Rat) / 3600 < 0) := by
  constructor
  · unfold hoursRemaining
    rw [h]
  · intro hpast
    apply div_neg_of_neg_of_pos
    · have hneg : (d.period_finish - now : Int) < 0 := by omega
      exact_mod_cast hneg
    · norm_num

/-- C6 witness: period_finish one hour in the past yields minus one hour,
not zero. -/
theorem hoursRemaining_correct_witness :
    hoursRemaining testChain 10800 gaugeA tokenB = .ok (-1 : Rat) ∧
      ((7200 - 10800 : Int) : Rat) / 3600 < 0 := by
  constructor
  · rw [(hoursRemaining_correct testChain 10800 gaugeA tokenB
        ⟨gaugeA, 7200, 1, 0, 0⟩ rfl).1]
    norm_num
  · exact (hoursRemaining_correct testChain 10800 gaugeA tokenB
        ⟨gaugeA, 7200, 1, 0, 0⟩ rfl).2 (by norm_num)

/-- Helper: one successful read unfolds one scan step. -/
theorem scanTokens_step_ok (ch : Chain) (gauge token : String) (i fuel : Nat)
    (t : String) (h : ch.reward_tokens gauge i = .ok t) :
    scanTokens ch gauge token i (fuel + 1) =
      (if addrEq t token then .ok true
       else scanTokens ch gauge token (i + 1) fuel) := by
  rw [show scanTokens ch gauge token i (fuel + 1) =
      (match ch.reward_tokens gauge i with
       | .error e => .error e
       | .ok t => if addrEq t token then .ok true
                  else scanTokens ch gauge token (i + 1) fuel) from rfl, h]

/-- Helper: a known reward_count unfolds tokenExistsOnGauge to the scan. -/
theorem tokenExistsOnGauge_eq_scan (ch : Chain) (gauge token : String) (n : Nat)
    (hn : ch.reward_count gauge = .ok n) :
    tokenExistsOnGauge ch gauge token = scanTokens ch gauge token 0 n := by
  unfold tokenExistsOnGauge
  rw [hn]

/-- Helper: when every read in the scanned window succeeds, the scan returns
whether some scanned index holds a case-insensitive match. -/
theorem scanTokens_complete (ch : Chain) (gauge token : String) (f : Nat → String) :
    ∀ (k i : Nat), (∀ j ∈ List.range' i k, ch.reward_tokens gauge j = .ok (f j)) →
      scanTokens ch gauge token i k =
        .ok ((List.range' i k).any (fun j => addrEq (f j) token)) := by
  intro k
  induction k with
  | zero => intro i h; rfl
  | succ m ih =>
    intro i h
    have h0 : ch.reward_tokens gauge i = .ok (f i) := h i (by simp [List.range'])
    rw [scanTokens_step_ok ch gauge token i m (f i) h0]
    cases hm : addrEq (f i) token with
    | true =>
      rw [if_pos rfl]
      have : (List.range' i (m + 1)).any (fun j => addrEq (f j) token) = true := by
        simp only [List.range', List.any_cons, hm, Bool.true_or]
      rw [this]
    | false =>
      rw [if_neg (by simp [hm])]
      rw [ih (i + 1)
        (fun j hj => h j (by simp only [List.range', List.mem_cons]; exact Or.inr hj))]
      simp only [List.range', List.any_cons, hm, Bool.false_or]

/-- Helper: if the reads up to some matching index succeed, the scan
short-circuits to true no matter what later reads would do. -/
theorem scanTokens_found (ch : Chain) (gauge token : String) (f : Nat → String) :
    ∀ (k m i : Nat), m < k →
      (∀ l, l ≤ m → ch.reward_tokens gauge (i + l) = .ok (f (i + l))) →
      addrEq (f (i + m)) token = true →
      scanTokens ch gauge token i k = .ok true := by
  intro k
  induction k with
  | zero => intro m i hm _ _; exact absurd hm (Nat.not_lt_zero m)
  | succ kk ih =>
    intro m i hm hreads hmatch
    have h0 : ch.reward_tokens gauge i = .ok (f i) := by
      have := hreads 0 (Nat.zero_le m)
      simpa using this
    rw [scanTokens_step_ok ch gauge token i kk (f i) h0]
    cases hfi : addrEq (f i) token with
    | true => rw [if_pos rfl]
    | false =>
      rw [if_neg (by simp [hfi])]
      cases m with
      | zero => exact absurd (by simpa using hmatch) (by simp [hfi])
      | succ mm =>
        apply ih mm (i + 1) (by omega)
        · intro l hl
          have := hreads (l + 1) (by omega)
          have e : i + (l + 1) = i + 1 + l := by omega
          rw [e] at this
          exact this
        · have e : i + (mm + 1) = i + 1 + mm := by omega
          rw [e] at hmatch
          exact hmatch

/-- C7: tokenExistsOnGauge scans indices 0..reward_count-1 in order: when all
those reads succeed it returns exactly whether some index holds a
case-insensitive match of the token; and it stops at the first match — if the
reads up to a matching index succeed it returns true regardless of the rest. -/
theorem tokenExistsOnGauge_correct (ch : Chain) (gauge token : String)
    (n : Nat) (f : Nat → String) (hn : ch.reward_count gauge = .ok n) :
    ((∀ i, i < n → ch.reward_tokens gauge i = .ok (f i)) →
       tokenExistsOnGauge ch gauge token =
         .ok ((List.range n).any (fun i => addrEq (f i) token))) ∧
    (∀ m, m < n → (∀ i, i ≤ m → ch.reward_tokens gauge i = .ok (f i)) →
       addrEq (f m) token = true →
       tokenExistsOnGauge ch gauge token = .ok true) := by
  constructor
  · intro h
    rw [tokenExistsOnGauge_eq_scan ch gauge token n hn]
    rw [scanTokens_complete ch gauge token f n 0
      (fun j hj => h j (by simpa [List.mem_range'_1] using hj))]
    rw [List.range_eq_range']
  · intro m hm hreads hmatch
    rw [tokenExistsOnGauge_eq_scan ch gauge token n hn]
    exact scanTokens_found ch gauge token f n m 0 hm
      (fun l hl => by simpa using hreads l hl) (by simpa using hmatch)

/-- C7 witness: a token stored in uppercase at index 1 is found by its
lowercase spelling after a scan over both indices. -/
theorem tokenExistsOnGauge_correct_witness :
    tokenExistsOnGauge testChain gaugeA tokenCLower = .ok true := by
  rw [(tokenExistsOnGauge_correct testChain gaugeA tokenCLower 2
      (fun i => if i == 0 then tokenB else tokenC) rfl).1 (fun i _ => rfl)]
  rfl

/-- C8: at startup an absent file initializes the empty mapping; a present
file is parsed, a successful parse is adopted, and a parse error propagates
unhandled (startup aborts with that error). -/
theorem loadConfig_correct (parseContent : String → Except String AllConfig)
    (s : String) :
    loadConfig none parseContent = .ok [] ∧
      (∀ c, parseContent s = .ok c → loadConfig (some s) parseContent = .ok c) ∧
      (∀ e, parseContent s = .error e →
        loadConfig (some s) parseContent = .error e) :=
  ⟨rfl, fun _ hc => hc, fun _ he => he⟩

/-- A parse function rejecting every content, standing for JSON.parse on a
corrupt file. -/
def badParse : String → Except String AllConfig :=
  fun _ => .error "Unexpected token"

/-- C8 witness: no file yields the empty mapping; a corrupt file propagates
the parse error. -/
theorem loadConfig_correct_witness :
    loadConfig none badParse = .ok [] ∧
      loadConfig (some "nonsense") badParse = .error "Unexpected token" :=
  ⟨(loadConfig_correct badParse "nonsense").1,
   (loadConfig_correct badParse "nonsense").2.2 "Unexpected token" rfl⟩

/-- Helper: one reminder record decodes back from its document. -/
theorem decodeGauge_encodeGauge (g : GaugeConfig) :
    decodeGauge (encodeGauge g) = some g := rfl

/-- Helper: a reminder list decodes back element by element. -/
theorem decodeGaugeList_map (l : List GaugeConfig) :
    decodeGaugeList (l.map encodeGauge) = some l := by
  induction l with
  | nil => rfl
  | cons g gs ih =>
    show decodeGaugeList (encodeGauge g :: gs.map encodeGauge) = _
    unfold decodeGaugeList
    rw [decodeGauge_encodeGauge, ih]

/-- Helper: one group decodes back from its document. -/
theorem decodeGroup_encodeGroup (g : GroupConfig) :
    decodeGroup (encodeGroup g) = some g := by
  simp [encodeGroup, decodeGroup, decodeGaugeList_map]

/-- Helper: the top-level field list decodes back chat by chat. -/
theorem decodeGroupFields_map (cfg : AllConfig) :
    decodeGroupFields (cfg.map (fun p => (p.1, encodeGroup p.2))) = some cfg := by
  induction cfg with
  | nil => rfl
  | cons p rest ih =>
    show decodeGroupFields ((p.1, encodeGroup p.2) :: rest.map _) = _
    unfold decodeGroupFields
    rw [decodeGroup_encodeGroup, ih]

/-- C9: writing the store with saveConfig (serializing to the JSON document)
and re-reading it as at startup yields the original configuration: save
followed by load is the identity. -/
theorem decodeAllConfig_encodeAllConfig (cfg : AllConfig) :
    decodeAllConfig (encodeAllConfig cfg) = some cfg := by
  unfold encodeAllConfig decodeAllConfig
  exact decodeGroupFields_map cfg
